import Mathlib

/-!
Verification development for the `rypak` file-size-reduction tool.

The tool is a batch driver (`repack_files`) that, for each file matched by a
glob, classifies the file by extension, renames it aside to a backup path,
runs a format-specific repacking strategy that writes a candidate output at
the original path, compares byte sizes, and keeps whichever file is smaller.
External helper executables (7z, optipng, jpegtran, h5repack) are invoked via
`subprocess`; their effect on the filesystem is environment-determined, so the
model below threads an oracle `eff : Call → Fs → Fs` for the effect of each
external invocation and records the exact invocations in a trace.  Everything
the tool itself computes (classification, path manipulation, the
backup/compare/restore state machine, the builtin zipfile-based repack, the
TAR-to-ZIP conversion, size formatting, argument parsing) is modelled
concretely below, following the source `rypak.py`.
-/

deriving instance DecidableEq for Except

/-- Python exceptions that the modelled code can raise. -/
inductive PyErr where
  /-- `ZeroDivisionError` (division by zero in `print_oneline_summary`). -/
  | zeroDivision
  /-- `NameError`/`UnboundLocalError` (use of an unassigned variable). -/
  | nameError
  /-- `FileNotFoundError` raised by `os.stat` on a missing path. -/
  | fileNotFound (path : String)
  /-- `AttributeError` (calling `.read()` on `None`, see `tar2zip`). -/
  | attributeError
  /-- `zipfile.BadZipFile` raised when opening an unreadable archive. -/
  | badZip (path : String)
  deriving Repr, DecidableEq

/-! ### Association lists (used as filesystem maps)

Filesystem directories and in-memory name-to-info maps are modelled as
association lists from `String` keys to values, with first-match lookup and
set-by-remove-and-cons update. -/

/-- Lookup of a key in an association list (first match wins). -/
def alGet {α : Type} : List (String × α) → String → Option α
  | [], _ => none
  | (q, d) :: rest, p => if q = p then some d else alGet rest p

/-- Delete every binding of a key. -/
def alRemove {α : Type} (m : List (String × α)) (p : String) : List (String × α) :=
  m.filter (fun e => e.1 ≠ p)

/-- Overwrite the binding of a key. -/
def alSet {α : Type} (m : List (String × α)) (p : String) (d : α) : List (String × α) :=
  (p, d) :: alRemove m p

theorem alGet_alRemove_self {α : Type} (m : List (String × α)) (p : String) :
    alGet (alRemove m p) p = none := by
  induction m with
  | nil => rfl
  | cons e rest ih =>
    obtain ⟨a, d⟩ := e
    by_cases h : a = p
    · simpa [alRemove, List.filter_cons, h] using ih
    · simpa [alRemove, List.filter_cons, alGet, h] using ih

theorem alGet_alRemove_ne {α : Type} (m : List (String × α)) (p q : String) (h : q ≠ p) :
    alGet (alRemove m p) q = alGet m q := by
  induction m with
  | nil => rfl
  | cons e rest ih =>
    obtain ⟨a, d⟩ := e
    simp only [alRemove, List.filter_cons] at ih ⊢
    by_cases he : a = p
    · rw [if_neg (by simp [he])]
      rw [ih]
      simp only [alGet]
      rw [if_neg (by rw [he]; exact fun hq => h hq.symm)]
    · rw [if_pos (by simp [he])]
      simp only [alGet]
      by_cases hq : a = q
      · rw [if_pos hq, if_pos hq]
      · rw [if_neg hq, if_neg hq]
        exact ih

theorem alGet_alSet_self {α : Type} (m : List (String × α)) (p : String) (d : α) :
    alGet (alSet m p d) p = some d := by
  simp [alSet, alGet]

theorem alGet_alSet_ne {α : Type} (m : List (String × α)) (p q : String) (d : α) (h : q ≠ p) :
    alGet (alSet m p d) q = alGet m q := by
  simp only [alSet, alGet]
  rw [if_neg (fun hq => h hq.symm)]
  exact alGet_alRemove_ne m p q h

/-! ### Exact fraction arithmetic

Python's `/` produces floats.  All divisions performed by the tool on the
values whose results it inspects (sizes divided by powers of 1024, size
ratios) are exact in binary floating point at the scales involved, so the
model uses exact, unnormalised fractions: an integer numerator over a
positive natural denominator.  No gcd normalisation is performed, keeping
every operation kernel-computable. -/

/-- An unnormalised fraction `num / den` (`den` is kept positive). -/
structure Frac where
  num : Int
  den : Nat
  deriving Repr, DecidableEq

/-- Embed an integer. -/
def Frac.ofInt (n : Int) : Frac := ⟨n, 1⟩

/-- `a ≤ b` by cross-multiplication (denominators are positive). -/
def Frac.le (a b : Frac) : Bool := decide (a.num * (b.den : Int) ≤ b.num * (a.den : Int))

/-- Divide by a positive natural number (e.g. 1024). -/
def Frac.divNat (q : Frac) (k : Nat) : Frac := ⟨q.num, q.den * k⟩

/-- Subtraction. -/
def Frac.sub (a b : Frac) : Frac := ⟨a.num * b.den - b.num * a.den, a.den * b.den⟩

/-- Multiply by an integer scalar. -/
def Frac.mulInt (k : Int) (q : Frac) : Frac := ⟨k * q.num, q.den⟩

/-- The quotient of two integers as a fraction (caller guards a zero divisor). -/
def Frac.divInts (a b : Int) : Frac :=
  if 0 ≤ b then ⟨a, b.toNat⟩ else ⟨-a, (-b).toNat⟩

/-- Round `n / d` to the nearest integer, ties to even — the rounding used by
Python's `"{:.2f}"` formatting (applied there to the value scaled by 100). -/
def roundHalfEven (n : Int) (d : Nat) : Int :=
  let f := Int.fdiv n d
  let r := n - f * d
  if 2 * r < (d : Int) then f
  else if (d : Int) < 2 * r then f + 1
  else if f % 2 = 0 then f else f + 1

/-- Python's `"{:.2f}".format(q)`: the value rendered with exactly two
digits after the decimal point, round-half-even. -/
def formatFixed2 (q : Frac) : String :=
  let scaled := roundHalfEven (100 * q.num) q.den
  let sign := if scaled < 0 then "-" else ""
  let a := scaled.natAbs
  sign ++ toString (a / 100) ++ "." ++ (if a % 100 < 10 then "0" else "") ++ toString (a % 100)

/-! ### `humansize` and the one-line summary (rypak.py lines 51–65) -/

/-- `BYTE_SUFFIXES = ['B', 'kiB', 'MiB', 'GiB', 'TiB']`. -/
def BYTE_SUFFIXES : List String := ["B", "kiB", "MiB", "GiB", "TiB"]

/-- The `while nbytes >= 1024 and i < len(BYTE_SUFFIXES)-1` loop of
`humansize`, with explicit fuel (the loop runs at most
`len(BYTE_SUFFIXES) - 1 = 4` times since `i` increases on every pass). -/
def humansizeLoop : Nat → Frac → Nat → Frac × Nat
  | 0, q, i => (q, i)
  | fuel + 1, q, i =>
    if Frac.le (Frac.ofInt 1024) q && decide (i < BYTE_SUFFIXES.length - 1) then
      humansizeLoop fuel (q.divNat 1024) (i + 1)
    else (q, i)

/-- `humansize(nbytes)`: `'0 B'` for zero, else repeated division by 1024
with a two-decimal rendering and the matching suffix. -/
def humansize (nbytes : Int) : String :=
  if nbytes = 0 then "0 B"
  else
    let qi := humansizeLoop 5 (Frac.ofInt nbytes) 0
    formatFixed2 qi.1 ++ " " ++ (BYTE_SUFFIXES.getD qi.2 "")

/-- `print_oneline_summary(label, size1, size2)`: computes
`ratio = 100 * (size2 / size1 - 1)` — raising `ZeroDivisionError` when
`size1 == 0` — then renders the one-line report.  The returned string is the
line written to stdout. -/
def print_oneline_summary (label : String) (size1 size2 : Int) : Except PyErr String :=
  if size1 = 0 then .error .zeroDivision
  else
    let ratio := Frac.mulInt 100 (Frac.sub (Frac.divInts size2 size1) (Frac.ofInt 1))
    .ok (label ++ " ... " ++ humansize size1 ++ " to " ++ humansize size2 ++
      " (" ++ formatFixed2 ratio ++ "%) [diff = " ++ humansize (size1 - size2) ++ "]")

/-! ### Path helpers (`os.path.splitext`, `str.lower`) -/

/-- Index of the last occurrence of a character in a list, `-1` if absent
(Python's `str.rfind`). -/
def rfindChar : List Char → Char → Int
  | [], _ => -1
  | a :: rest, c =>
    let r := rfindChar rest c
    if 0 ≤ r then r + 1 else if a = c then 0 else -1

/-- `os.path.splitext` (posix): split off the extension at the last dot,
provided the dot lies after the last path separator and the characters
between the separator and the dot are not all dots (so dotfiles such as
`.bashrc` keep an empty extension). -/
def splitext (p : String) : String × String :=
  let l := p.data
  let sepIndex := rfindChar l '/'
  let dotIndex := rfindChar l '.'
  if sepIndex < dotIndex then
    let between := (l.take dotIndex.toNat).drop (sepIndex + 1).toNat
    if between.any (fun c => c ≠ '.') then
      (⟨l.take dotIndex.toNat⟩, ⟨l.drop dotIndex.toNat⟩)
    else (p, "")
  else (p, "")

/-- `str.lower`, character by character. -/
def lowerStr (s : String) : String := ⟨s.data.map Char.toLower⟩

theorem splitext_length (p : String) :
    (splitext p).1.length + (splitext p).2.length = p.length := by
  simp only [splitext]
  by_cases h1 : rfindChar p.data '/' < rfindChar p.data '.'
  · rw [if_pos h1]
    by_cases h2 :
      (((p.data.take (rfindChar p.data '.').toNat)).drop
        ((rfindChar p.data '/') + 1).toNat).any (fun c => c ≠ '.') = true
    · rw [if_pos h2]
      show (p.data.take (rfindChar p.data '.').toNat).length +
        (p.data.drop (rfindChar p.data '.').toNat).length = p.data.length
      rw [List.length_take, List.length_drop]
      omega
    · rw [if_neg h2]
      show p.length + ("" : String).length = p.length
      rfl
  · rw [if_neg h1]
    show p.length + ("" : String).length = p.length
    rfl

/-- The backup path `basename + '_bak' + ext` built by `repack_files` is
never equal to the source path itself (it is four characters longer). -/
theorem backup_ne_source (p b e : String) (h : splitext p = (b, e)) :
    b ++ "_bak" ++ e ≠ p := by
  intro heq
  have hlen := splitext_length p
  rw [h] at hlen
  have : (b ++ "_bak" ++ e).length = p.length := by rw [heq]
  rw [String.length_append, String.length_append] at this
  have hbak : ("_bak" : String).length = 4 := by decide
  simp only at hlen
  omega

/-! ### External utilities and the accepted-extension set (rypak.py 23–48) -/

/-- The resolved paths of the helper executables, `UTIL_EXE`: each field is
`some path` when `shutil.which` found the utility, else `none`. -/
structure UtilCfg where
  sevenZ : Option String
  optipng : Option String
  jpegtran : Option String
  h5repack : Option String
  deriving Repr, DecidableEq

/-- `OOXML_MEDIA`: map from Office container extension to its media
subdirectory. -/
def OOXML_MEDIA : List (String × String) :=
  [(".docx", "word/media"), (".pptx", "ppt/media"), (".xlsx", "xl/media")]

/-- `ZIP_TYPE = tuple(OOXML_MEDIA.keys()) + ('.zip',)`. -/
def ZIP_TYPE : List String := OOXML_MEDIA.map (fun e => e.1) ++ [".zip"]

/-- `JPG_TYPE = ('.jpg', '.jpeg', '.jpe')`. -/
def JPG_TYPE : List String := [".jpg", ".jpeg", ".jpe"]

/-- `OPTIPNG_ALT_TYPE = ('.bmp', '.gif', '.tif', '.tiff')`. -/
def OPTIPNG_ALT_TYPE : List String := [".bmp", ".gif", ".tif", ".tiff"]

/-- `ACCEPTED_TYPES`: ZIP family and `.tar` unconditionally; `.png` and the
alternate image formats only when optipng is available; the JPEG family only
when jpegtran is available; `.h5` only when h5repack is available. -/
def ACCEPTED_TYPES (cfg : UtilCfg) : List String :=
  (ZIP_TYPE ++ [".tar"]) ++
  (if cfg.optipng.isSome then [".png"] ++ OPTIPNG_ALT_TYPE else []) ++
  (if cfg.jpegtran.isSome then JPG_TYPE else []) ++
  (if cfg.h5repack.isSome then [".h5"] else [])

/-! ### Filesystem artifacts and external invocations -/

/-- A file on disk: its byte content and a token standing for the filesystem
stat metadata (timestamps and permissions, copied around by
`shutil.copystat`).  The byte size used in the compare step is
`bytes.length`. -/
structure FileData where
  bytes : List Nat
  stat : Nat
  deriving Repr, DecidableEq

/-- The filesystem: a map from path to file data. -/
def Fs := List (String × FileData)

instance : DecidableEq Fs := fun a b => List.hasDecEq a b

/-- The dispatched repacking strategy of the backup/compare path. -/
inductive StratId where
  /-- `repack_ooxml` -/
  | ooxml
  /-- `repack_zip` -/
  | zipStrat
  /-- `optimize_png` -/
  | png
  /-- `optimize_jpg` -/
  | jpgStrat
  /-- `h5repack` -/
  | h5
  deriving Repr, DecidableEq

/-- An operation whose filesystem effect is environment-determined: either a
dispatched strategy run `strat s src dst` (reads `src`, writes a candidate at
`dst`; its output size depends on external compressors), the TAR→ZIP
conversion (writes a new `.zip` next to the source), or a direct
`subprocess.run` — with an argument list (`proc`) or, when the Python code
passes a single string, with that string as the program (`procStr`). -/
inductive Call where
  | strat (s : StratId) (src dst : String)
  | tarConvert (src : String)
  | proc (argv : List String)
  | procStr (cmd : String)
  deriving Repr, DecidableEq

/-- `optimize_png(src, dst)`: the subprocess invocation it performs — empty
when optipng is unavailable (silent no-op). -/
def optimize_png (cfg : UtilCfg) (src dst : String) : List Call :=
  match cfg.optipng with
  | none => []
  | some p => [.proc ([p] ++ ["-o5", "-preserve", "-out", dst] ++ [src])]

/-- `optimize_jpg(src, dst, extra_markers)`: the subprocess invocation it
performs — empty when jpegtran is unavailable. -/
def optimize_jpg (cfg : UtilCfg) (src dst extra_markers : String) : List Call :=
  match cfg.jpegtran with
  | none => []
  | some p => [.proc ([p] ++ ["-optimize", "-progressive", "-copy", extra_markers] ++ [src, dst])]

/-- `h5repack(src, dst, options)`: the subprocess invocation it performs —
empty when h5repack is unavailable. -/
def h5repack (cfg : UtilCfg) (src dst : String) (options : List String) : List Call :=
  match cfg.h5repack with
  | none => []
  | some p => [.proc ([p] ++ options ++ [src, dst])]

/-! ### The batch driver `repack_files` (rypak.py 189–243)

The driver is modelled as a fold over the glob's matches.  `eff` is the
environment oracle giving the filesystem effect of each `Call` (external
compressors and the archive writers produce output whose byte size cannot be
predicted by the tool).  The driver records every call it issues in a trace,
accumulates the running totals `tot1`/`tot2`, collects the summary lines it
writes, and tracks the last value of the loop variable `sourcefile` (used by
the final grand-total summary). -/

/-- State threaded through the `repack_files` loop. -/
structure DriverSt where
  fs : Fs
  tot1 : Int
  tot2 : Int
  out : List String
  trace : List Call
  lastSource : Option String
  deriving DecidableEq

/-- `os.rename(src, dst)` (no-op here when `src` is missing; the driver only
renames paths it has just stat'ed). -/
def fsRename (fs : Fs) (src dst : String) : Fs :=
  match alGet fs src with
  | none => fs
  | some d => alSet (alRemove fs src) dst d

/-- `shutil.copystat(src, dst)`: copy the stat metadata of `src` onto `dst`. -/
def copystatFs (fs : Fs) (src dst : String) : Fs :=
  match alGet fs src, alGet fs dst with
  | some s, some d => alSet fs dst { d with stat := s.stat }
  | _, _ => fs

/-- The strategy dispatch of `repack_files` (the `if/elif` chain on the
lowercased extension, lines 214–223): which strategy is run on
`(backup_source, destfile)`.  The chain depends only on the extension; the
availability checks live inside the individual strategies and in
`ACCEPTED_TYPES`. -/
def stratCallOf (extL src dst : String) : Option Call :=
  if (OOXML_MEDIA.map (fun e => e.1)).contains extL then some (.strat .ooxml src dst)
  else if ZIP_TYPE.contains extL then some (.strat .zipStrat src dst)
  else if extL = ".png" then some (.strat .png src dst)
  else if JPG_TYPE.contains extL then some (.strat .jpgStrat src dst)
  else if extL = ".h5" then some (.strat .h5 src dst)
  else none

/-- The filesystem after the source file has been renamed aside to
`backup` and the dispatched strategy has run. -/
def fsAfterStrategy (eff : Call → Fs → Fs) (fs : Fs)
    (sourcefile backup extL : String) : Fs :=
  let fs1 := fsRename fs sourcefile backup
  match stratCallOf extL backup sourcefile with
  | some c => eff c fs1
  | none => fs1

/-- The backup/compare tail of one `repack_files` iteration (lines 209–240):
rename the source aside, dispatch the strategy, stat the new file, print the
per-file summary when verbose (updating the running totals), restore the
backup when the new file is not strictly smaller, else copy the stat
metadata when `preserve`; finally delete the backup unless `keep`. -/
def processBackupPath (eff : Call → Fs → Fs)
    (preserve keep verbose : Bool) (st : DriverSt)
    (sourcefile basename ext0 : String) (size1 : Int) : Except PyErr DriverSt :=
  let backup_source := basename ++ "_bak" ++ ext0
  let destfile := sourcefile
  let extL := lowerStr ext0
  let fs2 := fsAfterStrategy eff st.fs sourcefile backup_source extL
  let trace2 := st.trace ++ (stratCallOf extL backup_source destfile).toList
  match alGet fs2 destfile with
  | none => .error (.fileNotFound destfile)
  | some destData =>
    let size2 : Int := destData.bytes.length
    let step1 : Except PyErr (Int × Int × List String) :=
      if verbose then
        match print_oneline_summary sourcefile size1 size2 with
        | .error e => .error e
        | .ok line => .ok (st.tot1 + size1, st.tot2 + size2, st.out ++ [line])
      else .ok (st.tot1, st.tot2, st.out)
    match step1 with
    | .error e => .error e
    | .ok t =>
      let fs3t :=
        if size1 ≤ size2 then
          (fsRename (alRemove fs2 destfile) backup_source destfile, t.2.1 + (size1 - size2))
        else if preserve then (copystatFs fs2 backup_source destfile, t.2.1)
        else (fs2, t.2.1)
      let fs4 :=
        if !keep && (alGet fs3t.1 backup_source).isSome then alRemove fs3t.1 backup_source
        else fs3t.1
      .ok ⟨fs4, t.1, fs3t.2, t.2.2, trace2, st.lastSource⟩

/-- One iteration of the `repack_files` loop for the match `sourcefile`:
assign the loop variable, classify by lowercased extension (skip when not
accepted), stat the source, then either convert a TAR, handle the
BMP/GIF/TIFF branch (which builds an optipng argument list but actually
passes the raw glob pattern `filenames` to `subprocess.run` — a slip in the
source), or run the backup/compare path. -/
def processOne (cfg : UtilCfg) (eff : Call → Fs → Fs) (filenames : String)
    (preserve keep verbose : Bool) (st0 : DriverSt) (sourcefile : String) :
    Except PyErr DriverSt :=
  let st := { st0 with lastSource := some sourcefile }
  let basename := (splitext sourcefile).1
  let ext0 := (splitext sourcefile).2
  let extL := lowerStr ext0
  if ¬ ((ACCEPTED_TYPES cfg).contains extL) then .ok st
  else
    match alGet st.fs sourcefile with
    | none => .error (.fileNotFound sourcefile)
    | some srcData =>
      let size1 : Int := srcData.bytes.length
      if extL = ".tar" then
        .ok { st with fs := eff (.tarConvert sourcefile) st.fs,
                      trace := st.trace ++ [.tarConvert sourcefile] }
      else if OPTIPNG_ALT_TYPE.contains extL then
        match cfg.optipng with
        | none => .ok st
        | some p =>
          let _args := [p, "-o5", "-preserve", sourcefile]
          .ok { st with fs := eff (.procStr filenames) st.fs,
                        trace := st.trace ++ [.procStr filenames] }
      else processBackupPath eff preserve keep verbose st sourcefile basename ext0 size1

/-- `repack_files(filenames, preserve, keep, verbose)` over the list of glob
matches: fold the per-file step, then — when verbose — print the grand-total
summary line, whose label is the leftover loop variable `sourcefile`
(`NameError` when the glob matched nothing, since the loop variable was
never assigned). -/
def repack_files (cfg : UtilCfg) (eff : Call → Fs → Fs) (filenames : String)
    (matched : List String) (preserve keep verbose : Bool) (fs0 : Fs) :
    Except PyErr DriverSt :=
  let st0 : DriverSt := ⟨fs0, 0, 0, [], [], none⟩
  match matched.foldlM (fun st f => processOne cfg eff filenames preserve keep verbose st f) st0 with
  | .error e => .error e
  | .ok stN =>
    if verbose then
      match stN.lastSource with
      | none => .error .nameError
      | some s =>
        match print_oneline_summary s stN.tot1 stN.tot2 with
        | .error e => .error e
        | .ok line => .ok { stN with out := stN.out ++ [line] }
    else .ok stN

/-! ### Zip archives at the entry level (`zipfile`)

For the claims about logical archive content (`repack_zip`'s builtin path and
`tar2zip`), archives are modelled as the ordered list of their entries:
name, timestamp tuple and uncompressed content.  The physical (compressed)
byte strings are irrelevant at this level. -/

/-- A `(year, month, day, hour, minute, second)` tuple — the `date_time`
field of a `zipfile.ZipInfo`. -/
abbrev DateTuple := Nat × Nat × Nat × Nat × Nat × Nat

/-- One zip entry: its name, `date_time` tuple and uncompressed content. -/
structure ZipEntry where
  name : String
  time : DateTuple
  content : List Nat
  deriving Repr, DecidableEq

/-- `ZipFile.namelist()`. -/
def namelist (z : List ZipEntry) : List String := z.map (fun e => e.name)

/-- `zipfile`'s `NameToInfo` dictionary: built by inserting every entry in
order, so for duplicate names the last entry wins. -/
def NameToInfo (z : List ZipEntry) : List (String × ZipEntry) :=
  z.foldl (fun m e => alSet m e.name e) []

/-- `ZipFile.read(n)`: look the name up in `NameToInfo` and return that
entry's (uncompressed) content. -/
def zipRead (z : List ZipEntry) (n : String) : Option (List Nat) :=
  (alGet (NameToInfo z) n).map (fun e => e.content)

/-- `ZipFile.extractall(dir)`: write every entry in order into the target
directory, later entries overwriting earlier ones of the same name.  The
result is the directory's final name-to-content map. -/
def extractAll (z : List ZipEntry) : List (String × List Nat) :=
  z.foldl (fun m e => alSet m e.name e.content) []

/-- The builtin (no 7z) path of `repack_zip` (rypak.py 139–143):
`for n, i in zip(src.namelist(), src.infolist()): dst.writestr(i, src.read(n))`
— each output entry reuses the source `ZipInfo` `i` and carries the bytes
`read` returns for that entry's name. -/
def repack_zip_builtin (src : List ZipEntry) : List ZipEntry :=
  (List.zip (namelist src) src).map
    (fun p => ⟨p.2.name, p.2.time, (zipRead src p.1).getD []⟩)

/-! ### `tar2zip` (rypak.py 169–186) -/

/-- One member of a TAR archive: its name, modification time in integer
microseconds since the epoch, its content, and whether `extractfile` yields
a readable stream for it (true for regular files and links; false for
directories, fifos and device nodes, for which `extractfile` returns
`None`). -/
structure TarMember where
  name : String
  mtimeUs : Nat
  content : List Nat
  isReg : Bool
  deriving Repr, DecidableEq

/-- A TAR file: its members and its filesystem stat metadata token. -/
structure TarFile where
  members : List TarMember
  stat : Nat
  deriving Repr, DecidableEq

/-- A produced ZIP file: its entries and its stat metadata token. -/
structure ZipFileA where
  entries : List ZipEntry
  stat : Nat
  deriving Repr, DecidableEq

/-- An archive on disk, for the `tar2zip` filesystem model. -/
inductive Arch where
  | tarA (t : TarFile)
  | zipA (z : ZipFileA)
  deriving Repr, DecidableEq

/-- Civil date-time tuple from whole seconds since the Unix epoch (the
standard Gregorian civil-from-days computation).  This models
`datetime.datetime.fromtimestamp(s).timetuple()[:6]` with the local timezone
taken as UTC — the timezone is an environment parameter and offsets every
timestamp uniformly. -/
def civilFromSeconds (s : Nat) : DateTuple :=
  let days := s / 86400
  let rem := s % 86400
  let hh := rem / 3600
  let mm := rem % 3600 / 60
  let ss := rem % 60
  let eraDays := days + 719468
  let era := eraDays / 146097
  let doe := eraDays % 146097
  let yoe := (doe - doe / 1460 + doe / 36524 - doe / 146096) / 365
  let y := yoe + era * 400
  let doy := doe - (365 * yoe + yoe / 4 - yoe / 100)
  let mp := (5 * doy + 2) / 153
  let d := doy - (153 * mp + 2) / 5 + 1
  let m := if mp < 10 then mp + 3 else mp - 9
  (if m ≤ 2 then y + 1 else y, m, d, hh, mm, ss)

/-- The local `timetuple(mtime)` helper of `tar2zip`: the stored
modification time truncated to whole seconds, as a 6-field tuple. -/
def timetuple (mtimeUs : Nat) : DateTuple := civilFromSeconds (mtimeUs / 1000000)

/-- The member loop of `tar2zip`: write one zip entry per TAR member, with
the member's name, truncated timestamp and content.  `tf.extractfile(mem)`
returns `None` for a non-regular member, so `.read()` then raises
`AttributeError`. -/
def tarToZipEntries : List TarMember → Except PyErr (List ZipEntry)
  | [] => .ok []
  | m :: ms =>
    if m.isReg then
      match tarToZipEntries ms with
      | .error e => .error e
      | .ok es => .ok (⟨m.name, timetuple m.mtimeUs, m.content⟩ :: es)
    else .error .attributeError

/-- `tar2zip(tarfilename, zipfilename=None)` on a filesystem of archives:
derive the output name (source path with its extension replaced by `.zip`
when no explicit name is given), convert every member, write the ZIP and
copy the TAR's stat metadata onto it (`shutil.copystat`).  The source TAR is
left in place. -/
def tar2zip (fs : List (String × Arch)) (tarfilename : String)
    (zipArg : Option String) : Except PyErr (List (String × Arch)) :=
  let zipfilename := match zipArg with
    | none => (splitext tarfilename).1 ++ ".zip"
    | some z => z
  match alGet fs tarfilename with
  | some (Arch.tarA t) =>
    match tarToZipEntries t.members with
    | .error e => .error e
    | .ok entries => .ok (alSet fs zipfilename (Arch.zipA ⟨entries, t.stat⟩))
  | _ => .error (.fileNotFound tarfilename)

/-! ### The `UnpackedZip` context manager (rypak.py 98–110)

`with UnpackedZip(f) as tempdir: body` — `__enter__` creates a temporary
directory with `tempfile.mkdtemp` and then extracts the archive into it;
`__exit__` removes the directory with `shutil.rmtree`.  Python only invokes
`__exit__` when `__enter__` returned normally: an exception raised by
`extractall` inside `__enter__` propagates with the directory left behind. -/

/-- Outcome of one `with UnpackedZip(...)` block: whether the temporary
directory was created and whether it was removed again, and the overall
result (the body's outcome, or the extraction error). -/
structure UnpackedZipRun where
  dirCreated : Bool
  dirRemoved : Bool
  result : Except PyErr Unit
  deriving Repr, DecidableEq

/-- Run `with UnpackedZip(f) as tempdir: body`, given the outcome of
`extractall` and of the body. -/
def runUnpackedZip (extract : Except PyErr Unit) (body : Except PyErr Unit) :
    UnpackedZipRun :=
  match extract with
  | .error e => ⟨true, false, .error e⟩
  | .ok _ => ⟨true, true, body⟩

/-! ### The JPEG phase of `repack_ooxml` (rypak.py 159–164) -/

/-- Does the name start with a dot (a hidden file, which a leading `*` in a
glob pattern does not match)? -/
def startsWithDot (f : String) : Bool :=
  match f.data with
  | '.' :: _ => true
  | _ => false

/-- `glob(os.path.join(dir, '*' + suffix))` restricted to the file names of
the media directory: case-sensitive suffix match, skipping dotfiles (a
leading `*` does not match a hidden name). -/
def globSuffix (files : List String) (suffix : String) : List String :=
  files.filter (fun f => List.isSuffixOf suffix.data f.data && !(startsWithDot f))

/-- `jlist`: the three case-sensitive globs of `repack_ooxml`, in order —
`*.jpeg`, `*.JPEG`, `*.jpg`.  (No `*.JPG` glob appears in the source.) -/
def ooxmlJlist (files : List String) : List String :=
  globSuffix files ".jpeg" ++ globSuffix files ".JPEG" ++ globSuffix files ".jpg"

/-- The subprocess invocations of the JPEG phase of `repack_ooxml`: when
jpegtran is available, `optimize_jpg(f, f, extra_markers='none')` for every
file of `jlist`. -/
def repack_ooxml_jpg_calls (cfg : UtilCfg) (files : List String) : List Call :=
  if cfg.jpegtran.isSome then
    (ooxmlJlist files).flatMap (fun f => optimize_jpg cfg f f "none")
  else []

/-- Does a file name carry some case variant of the `.jpg` or `.jpeg`
extension?  (The wording of the specification's JPEG-coverage claim.) -/
def isJpegCaseVariant (f : String) : Bool :=
  List.isSuffixOf ".jpg".data (lowerStr f).data ||
  List.isSuffixOf ".jpeg".data (lowerStr f).data

/-! ### `parse_args` (rypak.py 246–272) -/

/-- A command line already matched against the declared options: whether
each flag is present, and the positional `srcfile` argument. -/
structure CmdLine where
  pFlag : Bool
  kFlag : Bool
  qFlag : Bool
  srcfile : String
  deriving Repr, DecidableEq

/-- argparse's `action='store_true'`: the destination becomes `True` when
the flag is present, else the declared default. -/
def storeTrueAction (present default : Bool) : Bool :=
  if present then true else default

/-- argparse's `action='store_false'`: the destination becomes `False` when
the flag is present, else the declared default (`True` when unspecified). -/
def storeFalseAction (present default : Bool) : Bool :=
  if present then false else default

/-- The parsed namespace. -/
structure ParsedArgs where
  srcfile : String
  preserve : Bool
  keep : Bool
  verbose : Bool
  deriving Repr, DecidableEq

/-- `parse_args` on an accepted command line: `-p` (`--preserve`) is declared
`action='store_true', default=True`; `-k` (`--keep`, `--backup`) is
`action='store_true', default=False`; `-q` (`--quiet`) is
`action='store_false'` into `verbose` (default `True`). -/
def parse_args (c : CmdLine) : ParsedArgs :=
  { srcfile := c.srcfile
    preserve := storeTrueAction c.pFlag true
    keep := storeTrueAction c.kFlag false
    verbose := storeFalseAction c.qFlag true }

/-! ### Lemmas: last-wins lookup through the zipfile folds -/

/-- Last-wins lookup over a list of zip entries, projected through `f`:
the value the final name-to-value dictionary holds for `n`. -/
def lastMatchF {α : Type} (f : ZipEntry → α) : List ZipEntry → String → Option α
  | [], _ => none
  | e :: rest, n =>
    match lastMatchF f rest n with
    | some v => some v
    | none => if e.name = n then some (f e) else none

theorem alGet_foldl_alSet {α : Type} (f : ZipEntry → α) (z : List ZipEntry)
    (m0 : List (String × α)) (n : String) :
    alGet (z.foldl (fun m e => alSet m e.name (f e)) m0) n =
      match lastMatchF f z n with
      | some v => some v
      | none => alGet m0 n := by
  induction z generalizing m0 with
  | nil => rfl
  | cons e rest ih =>
    rw [List.foldl_cons, ih]
    cases hr : lastMatchF f rest n with
    | some v => simp [lastMatchF, hr]
    | none =>
      simp only [lastMatchF, hr]
      by_cases he : e.name = n
      · rw [if_pos he, he, alGet_alSet_self]
      · rw [if_neg he, alGet_alSet_ne _ _ _ _ (fun hn => he hn.symm)]

theorem alGet_extractAll (z : List ZipEntry) (n : String) :
    alGet (extractAll z) n = lastMatchF (fun e => e.content) z n := by
  rw [extractAll, alGet_foldl_alSet]
  cases h : lastMatchF (fun e => e.content) z n <;> rfl

theorem alGet_NameToInfo (z : List ZipEntry) (n : String) :
    alGet (NameToInfo z) n = lastMatchF (fun e => e) z n := by
  rw [NameToInfo, alGet_foldl_alSet]
  cases h : lastMatchF (fun e => e) z n <;> rfl

theorem lastMatchF_map_val {α β : Type} (f : ZipEntry → α) (g : α → β) (z : List ZipEntry)
    (n : String) :
    (lastMatchF f z n).map g = lastMatchF (fun e => g (f e)) z n := by
  induction z with
  | nil => rfl
  | cons e rest ih =>
    simp only [lastMatchF, ← ih]
    cases hr : lastMatchF f rest n with
    | some v => rfl
    | none =>
      by_cases he : e.name = n
      · simp [he]
      · simp [he]

theorem zipRead_eq_lastMatchF (z : List ZipEntry) (n : String) :
    zipRead z n = lastMatchF (fun e => e.content) z n := by
  rw [zipRead, alGet_NameToInfo, lastMatchF_map_val]

theorem zip_namelist (src : List ZipEntry) :
    List.zip (namelist src) src = src.map (fun e => (e.name, e)) := by
  induction src with
  | nil => rfl
  | cons e rest ih =>
    simp only [namelist] at ih ⊢
    simp [List.zip_cons_cons, ih]

theorem repack_zip_builtin_eq (src : List ZipEntry) :
    repack_zip_builtin src =
      src.map (fun e => ⟨e.name, e.time, (zipRead src e.name).getD []⟩) := by
  rw [repack_zip_builtin, zip_namelist, List.map_map]
  rfl

theorem lastMatchF_map_entries (z : List ZipEntry) (g : String → List Nat) (n : String) :
    lastMatchF (fun e => e.content)
        (z.map (fun e => (⟨e.name, e.time, g e.name⟩ : ZipEntry))) n =
      (lastMatchF (fun e => e.content) z n).map (fun _ => g n) := by
  induction z with
  | nil => rfl
  | cons e rest ih =>
    simp only [List.map_cons, lastMatchF, ih]
    cases hr : lastMatchF (fun e => e.content) rest n with
    | some v => rfl
    | none =>
      by_cases he : e.name = n
      · simp [he]
      · simp [he]

/-- Claim C5: for every readable ZIP source, repacking it with the built-in
(no external packer) path of `repack_zip` and then extracting the
destination yields the same name-to-content mapping as extracting the
original (the extraction directory holds the same (name, content) pairs),
and the built-in path preserves the original ordering of entries (the
output's name sequence equals the source's). -/
theorem repack_zip_builtin_roundtrip (src : List ZipEntry) :
    (∀ n, alGet (extractAll (repack_zip_builtin src)) n = alGet (extractAll src) n) ∧
    namelist (repack_zip_builtin src) = namelist src := by
  constructor
  · intro n
    rw [alGet_extractAll, alGet_extractAll, repack_zip_builtin_eq,
      lastMatchF_map_entries src (fun m => (zipRead src m).getD []) n,
      zipRead_eq_lastMatchF]
    cases h : lastMatchF (fun e => e.content) src n <;> rfl
  · rw [repack_zip_builtin_eq, namelist, namelist, List.map_map]
    rfl

/-- Claim C8: the size-formatting function `humansize` returns `0 B` for 0,
`1.00 kiB` for 1024 and `1.50 kiB` for 1536. -/
theorem humansize_values :
    humansize 0 = "0 B" ∧ humansize 1024 = "1.00 kiB" ∧ humansize 1536 = "1.50 kiB" := by
  refine ⟨rfl, rfl, rfl⟩

/-- Claim C9: on every command line the parser accepts, the parsed
`preserve` option is `True` — the flag is declared `store_true` with default
`True`, so it cannot be disabled. -/
theorem parse_args_preserve_always_true (c : CmdLine) : (parse_args c).preserve = true := by
  simp [parse_args, storeTrueAction]

/-- Counterexample for claim C6: when `extractall` raises inside
`__enter__` (an unreadable archive), the scratch directory has been created
but is never removed — the with-statement skips `__exit__` because
`__enter__` did not return.  The claimed removal on every exit path fails. -/
theorem unpackedZip_leak_on_extract_error :
    (runUnpackedZip (.error (.badZip "broken.zip")) (.ok ())).dirCreated = true ∧
    (runUnpackedZip (.error (.badZip "broken.zip")) (.ok ())).dirRemoved = false :=
  ⟨rfl, rfl⟩

/-- Claim C6 (amended): the scratch directory is removed on every exit path
on which the extraction into it succeeded — whether the body (repacking)
succeeds or raises, and the body's outcome propagates unchanged; when the
extraction itself raises, the directory is left behind. -/
theorem unpackedZip_cleanup_after_successful_extract (body : Except PyErr Unit) :
    (runUnpackedZip (.ok ()) body).dirRemoved = true ∧
    (runUnpackedZip (.ok ()) body).result = body :=
  ⟨rfl, rfl⟩

/-- Utility table with only jpegtran available (C7 instances). -/
def cfgJpegtran : UtilCfg := ⟨none, none, some "jpegtran", none⟩

/-- Counterexample for claim C7: `photo.JPG` carries a case variant of the
`.jpg` extension, yet the JPEG phase of `repack_ooxml` issues no invocation
for it — the source only globs `*.jpeg`, `*.JPEG` and `*.jpg`,
case-sensitively, so `.JPG` files are skipped. -/
theorem ooxml_skips_uppercase_jpg :
    isJpegCaseVariant "photo.JPG" = true ∧
    repack_ooxml_jpg_calls cfgJpegtran ["photo.JPG"] = [] := by
  exact ⟨by decide, by decide⟩

/-- Claim C7 (amended): with the JPEG optimizer available, every media file
whose name ends in exactly `.jpeg`, `.JPEG` or `.jpg` (the three
case-sensitive patterns the source globs; not other case variants such as
`.JPG`) and is not a dotfile is recompressed in place — source and
destination are the same path — with copy-markers mode `none`. -/
theorem ooxml_jpg_recompressed (cfg : UtilCfg) (p : String) (files : List String) (f : String)
    (hj : cfg.jpegtran = some p)
    (hf : f ∈ files)
    (hext : (List.isSuffixOf ".jpeg".data f.data || List.isSuffixOf ".JPEG".data f.data ||
             List.isSuffixOf ".jpg".data f.data) = true)
    (hhid : startsWithDot f = false) :
    Call.proc [p, "-optimize", "-progressive", "-copy", "none", f, f] ∈
      repack_ooxml_jpg_calls cfg files := by
  have hmem : f ∈ ooxmlJlist files := by
    simp only [ooxmlJlist, globSuffix, List.mem_append, List.mem_filter]
    simp only [Bool.or_eq_true] at hext
    rcases hext with (h | h) | h
    · exact Or.inl (Or.inl ⟨hf, by rw [h, hhid]; rfl⟩)
    · exact Or.inl (Or.inr ⟨hf, by rw [h, hhid]; rfl⟩)
    · exact Or.inr ⟨hf, by rw [h, hhid]; rfl⟩
  rw [repack_ooxml_jpg_calls, if_pos (by rw [hj]; rfl)]
  refine List.mem_flatMap.mpr ⟨f, hmem, ?_⟩
  rw [optimize_jpg, hj]
  exact List.mem_singleton.mpr rfl

/-- Witness for the amended C7 theorem at a concrete media directory. -/
theorem ooxml_jpg_recompressed_witness :
    Call.proc ["jpegtran", "-optimize", "-progressive", "-copy", "none", "b.jpg", "b.jpg"] ∈
      repack_ooxml_jpg_calls cfgJpegtran ["b.jpg"] :=
  ooxml_jpg_recompressed cfgJpegtran "jpegtran" ["b.jpg"] "b.jpg" rfl (by decide) (by decide)
    (by decide)

/-- Claim C3 (code bug): with the default verbose output, an invocation
whose glob pattern matches no files does not complete successfully — the
grand-total summary after the loop reads the loop variable `sourcefile`,
which was never assigned, so the run aborts with a NameError
(UnboundLocalError) and a non-success exit status. -/
theorem repack_files_empty_glob_crashes (cfg : UtilCfg) (eff : Call → Fs → Fs)
    (filenames : String) (preserve keep : Bool) (fs0 : Fs) :
    repack_files cfg eff filenames [] preserve keep true fs0 = .error .nameError := rfl

/-- Utility table with only optipng available (C2 instance). -/
def cfgOptipng : UtilCfg := ⟨none, some "optipng", none, none⟩

/-- The identity filesystem oracle: external invocations that change
nothing. -/
def effNoop : Call → Fs → Fs := fun _ fs => fs

/-- A filesystem holding a single 1-byte `a.bmp`. -/
def fsOneBmp : Fs := [("a.bmp", ⟨[7], 0⟩)]

/-- Claim C2 (code bug): on the BMP/GIF/TIFF branch with optipng available,
the driver builds the optipng argument list but then passes the raw glob
pattern string to `subprocess.run` — the recorded invocation for the match
`a.bmp` is `procStr "a.bmp"` (running the pattern as a program), and the
claimed invocation `optipng -o5 -preserve a.bmp` never occurs. -/
theorem alt_branch_runs_pattern_not_optipng :
    processOne cfgOptipng effNoop "a.bmp" true false true ⟨fsOneBmp, 0, 0, [], [], none⟩
        "a.bmp" =
      .ok ⟨fsOneBmp, 0, 0, [], [Call.procStr "a.bmp"], some "a.bmp"⟩ ∧
    Call.proc ["optipng", "-o5", "-preserve", "a.bmp"] ∉ [Call.procStr "a.bmp"] := by
  exact ⟨by decide, by decide⟩

/-- A TAR whose only member is a directory (not extractable as a stream). -/
def tarWithDir : TarFile := ⟨[⟨"subdir", 1700000000000000, [], false⟩], 42⟩

/-- Counterexample for claim C4: on a TAR containing a directory member,
`tf.extractfile(mem)` returns `None` and the `.read()` call raises
`AttributeError` — no converted ZIP with matching members is produced, so
the claim does not hold for every TAR input. -/
theorem tar2zip_dir_member_raises :
    tar2zip [("a.tar", Arch.tarA tarWithDir)] "a.tar" none = .error .attributeError := by
  decide

theorem tarToZipEntries_ok (ms : List TarMember) (hreg : ∀ m ∈ ms, m.isReg = true) :
    tarToZipEntries ms =
      .ok (ms.map (fun m => ⟨m.name, timetuple m.mtimeUs, m.content⟩)) := by
  induction ms with
  | nil => rfl
  | cons m rest ih =>
    have hm := hreg m (List.mem_cons_self m rest)
    rw [tarToZipEntries, if_pos hm, ih (fun x hx => hreg x (List.mem_cons_of_mem m hx))]
    rfl

/-- Claim C4 (amended): for every TAR input all of whose members are
regular (stream-extractable) files — a TAR with a directory, fifo or device
member instead raises `AttributeError`, see the counterexample — `tar2zip`
writes a ZIP at the default output path (the source path with its extension
replaced by `.zip`) whose entries have the same member names and contents
as the TAR's members in order, each with timestamp equal to the member's
stored modification time truncated to whole seconds rendered as the 6-field
local-time tuple; the produced ZIP receives the TAR's filesystem stat
metadata (the `t.stat` token), and the source TAR is not deleted. -/
theorem tar2zip_converts (fs : List (String × Arch)) (tarfilename : String) (t : TarFile)
    (hsrc : alGet fs tarfilename = some (Arch.tarA t))
    (hreg : ∀ m ∈ t.members, m.isReg = true)
    (hne : (splitext tarfilename).1 ++ ".zip" ≠ tarfilename) :
    ∃ fs' entries, tar2zip fs tarfilename none = .ok fs' ∧
      alGet fs' ((splitext tarfilename).1 ++ ".zip") = some (Arch.zipA ⟨entries, t.stat⟩) ∧
      alGet fs' tarfilename = some (Arch.tarA t) ∧
      List.Forall₂ (fun (e : ZipEntry) (m : TarMember) =>
          e.name = m.name ∧ e.content = m.content ∧
          e.time = civilFromSeconds (m.mtimeUs / 1000000))
        entries t.members := by
  refine ⟨alSet fs ((splitext tarfilename).1 ++ ".zip")
      (Arch.zipA ⟨t.members.map (fun m => ⟨m.name, timetuple m.mtimeUs, m.content⟩), t.stat⟩),
    t.members.map (fun m => ⟨m.name, timetuple m.mtimeUs, m.content⟩), ?_, ?_, ?_, ?_⟩
  · rw [tar2zip, hsrc]
    dsimp only
    rw [tarToZipEntries_ok t.members hreg]
  · exact alGet_alSet_self _ _ _
  · rw [alGet_alSet_ne _ _ _ _ (fun h => hne h.symm)]
    exact hsrc
  · rw [List.forall₂_map_left_iff]
    exact List.forall₂_same.mpr (fun m _ => ⟨rfl, rfl, rfl⟩)

/-- A filesystem holding one TAR with a single regular member. -/
def fsTarW : List (String × Arch) :=
  [("a.tar", Arch.tarA ⟨[⟨"x.txt", 1700000000123456, [1, 2], true⟩], 42⟩)]

/-- Witness for the amended C4 theorem at a concrete one-member TAR. -/
theorem tar2zip_converts_witness :
    ∃ fs' entries, tar2zip fsTarW "a.tar" none = .ok fs' ∧
      alGet fs' ((splitext "a.tar").1 ++ ".zip") =
        some (Arch.zipA ⟨entries, (42 : Nat)⟩) ∧
      alGet fs' "a.tar" =
        some (Arch.tarA ⟨[⟨"x.txt", 1700000000123456, [1, 2], true⟩], 42⟩) ∧
      List.Forall₂ (fun (e : ZipEntry) (m : TarMember) =>
          e.name = m.name ∧ e.content = m.content ∧
          e.time = civilFromSeconds (m.mtimeUs / 1000000))
        entries [⟨"x.txt", 1700000000123456, [1, 2], true⟩] :=
  tar2zip_converts fsTarW "a.tar" ⟨[⟨"x.txt", 1700000000123456, [1, 2], true⟩], 42⟩
    rfl (by decide) (by decide)

/-- Reduction of a `repack_files` iteration to the backup/compare tail: when
the lowercased extension is accepted and is neither `.tar` nor one of the
BMP/GIF/TIFF alternates, and the source file exists, the iteration is the
backup/compare path with `size1` the source's byte size. -/
theorem processOne_eq_backupPath (cfg : UtilCfg) (eff : Call → Fs → Fs)
    (filenames : String) (preserve keep verbose : Bool) (st : DriverSt) (sourcefile : String)
    (orig : FileData)
    (hacc : (ACCEPTED_TYPES cfg).contains (lowerStr (splitext sourcefile).2) = true)
    (hntar : lowerStr (splitext sourcefile).2 ≠ ".tar")
    (hnalt : OPTIPNG_ALT_TYPE.contains (lowerStr (splitext sourcefile).2) = false)
    (hsrc : alGet st.fs sourcefile = some orig) :
    processOne cfg eff filenames preserve keep verbose st sourcefile =
      processBackupPath eff preserve keep verbose { st with lastSource := some sourcefile }
        sourcefile (splitext sourcefile).1 (splitext sourcefile).2
        ((orig.bytes.length : Nat) : Int) := by
  simp only [processOne, hacc, hntar, hnalt, hsrc]
  simp

/-- The restore branch of the backup/compare tail: when the strategy's
output at the original path is not strictly smaller than the backup (which
still holds the original data), the run succeeds, the new file is removed,
and the backup is renamed back — the original path again holds the original
data and no backup file remains. -/
theorem processBackupPath_restores (eff : Call → Fs → Fs)
    (preserve keep verbose : Bool) (st : DriverSt) (sourcefile basename ext0 : String)
    (orig newD : FileData)
    (hne : basename ++ "_bak" ++ ext0 ≠ sourcefile)
    (hdest : alGet (fsAfterStrategy eff st.fs sourcefile (basename ++ "_bak" ++ ext0)
        (lowerStr ext0)) sourcefile = some newD)
    (hback : alGet (fsAfterStrategy eff st.fs sourcefile (basename ++ "_bak" ++ ext0)
        (lowerStr ext0)) (basename ++ "_bak" ++ ext0) = some orig)
    (hge : ((orig.bytes.length : Nat) : Int) ≤ ((newD.bytes.length : Nat) : Int))
    (hnz : verbose = true → orig.bytes ≠ []) :
    ∃ st', processBackupPath eff preserve keep verbose st sourcefile basename ext0
        ((orig.bytes.length : Nat) : Int) = .ok st' ∧
      alGet st'.fs sourcefile = some orig ∧
      alGet st'.fs (basename ++ "_bak" ++ ext0) = none := by
  simp only [processBackupPath, hdest]
  have hrest : fsRename (alRemove (fsAfterStrategy eff st.fs sourcefile
        (basename ++ "_bak" ++ ext0) (lowerStr ext0)) sourcefile)
      (basename ++ "_bak" ++ ext0) sourcefile =
      alSet (alRemove (alRemove (fsAfterStrategy eff st.fs sourcefile
        (basename ++ "_bak" ++ ext0) (lowerStr ext0)) sourcefile)
        (basename ++ "_bak" ++ ext0)) sourcefile orig := by
    rw [fsRename, alGet_alRemove_ne _ _ _ hne, hback]
  cases hv : verbose with
  | false =>
    rw [if_neg (by simp [hv])]
    dsimp only
    rw [if_pos hge]
    dsimp only
    rw [hrest]
    rw [alGet_alSet_ne _ _ _ _ hne, alGet_alRemove_self]
    simp only [Option.isSome_none, Bool.and_false, Bool.false_eq_true, if_false]
    refine ⟨_, rfl, ?_, ?_⟩
    · exact alGet_alSet_self _ _ _
    · rw [alGet_alSet_ne _ _ _ _ hne, alGet_alRemove_self]
  | true =>
    have hnzl := hnz hv
    have hs1 : ((orig.bytes.length : Nat) : Int) ≠ 0 := by
      simp only [ne_eq, Int.natCast_eq_zero, List.length_eq_zero]
      exact hnzl
    rw [if_pos (show true = true from rfl)]
    rw [print_oneline_summary, if_neg hs1]
    dsimp only
    rw [if_pos hge]
    dsimp only
    rw [hrest]
    rw [alGet_alSet_ne _ _ _ _ hne, alGet_alRemove_self]
    simp only [Option.isSome_none, Bool.and_false, Bool.false_eq_true, if_false]
    refine ⟨_, rfl, ?_, ?_⟩
    · exact alGet_alSet_self _ _ _
    · rw [alGet_alSet_ne _ _ _ _ hne, alGet_alRemove_self]

/-- Strategy oracle for witnesses: a dispatched strategy writes a fixed
4-byte candidate at the destination; other calls change nothing. -/
def effGrow : Call → Fs → Fs := fun c fs =>
  match c with
  | .strat _ _ dst => alSet fs dst ⟨[9, 9, 9, 9], 0⟩
  | _ => fs

/-- Claim C1: for every file on the backup/compare path (an accepted
extension that is neither `.tar` nor a BMP/GIF/TIFF alternate), whatever the
strategy did, if its output at the original path is not strictly smaller in
bytes than the backup of the original (which the strategy left intact),
then processing succeeds, the new file is removed and the backup is renamed
back to the original path: the file at the original path afterwards is
byte-identical to the pre-run original, and no backup file remains.
(When verbose, the original must be non-empty, else the summary line
already aborts the run — claim C10.) -/
theorem backup_compare_restores_original (cfg : UtilCfg) (eff : Call → Fs → Fs)
    (filenames : String) (preserve keep verbose : Bool) (st : DriverSt)
    (sourcefile : String) (orig newD : FileData)
    (hacc : (ACCEPTED_TYPES cfg).contains (lowerStr (splitext sourcefile).2) = true)
    (hntar : lowerStr (splitext sourcefile).2 ≠ ".tar")
    (hnalt : OPTIPNG_ALT_TYPE.contains (lowerStr (splitext sourcefile).2) = false)
    (hsrc : alGet st.fs sourcefile = some orig)
    (hdest : alGet (fsAfterStrategy eff st.fs sourcefile
        ((splitext sourcefile).1 ++ "_bak" ++ (splitext sourcefile).2)
        (lowerStr (splitext sourcefile).2)) sourcefile = some newD)
    (hback : alGet (fsAfterStrategy eff st.fs sourcefile
        ((splitext sourcefile).1 ++ "_bak" ++ (splitext sourcefile).2)
        (lowerStr (splitext sourcefile).2))
        ((splitext sourcefile).1 ++ "_bak" ++ (splitext sourcefile).2) = some orig)
    (hge : ((orig.bytes.length : Nat) : Int) ≤ ((newD.bytes.length : Nat) : Int))
    (hnz : verbose = true → orig.bytes ≠ []) :
    ∃ st', processOne cfg eff filenames preserve keep verbose st sourcefile = .ok st' ∧
      alGet st'.fs sourcefile = some orig ∧
      alGet st'.fs ((splitext sourcefile).1 ++ "_bak" ++ (splitext sourcefile).2) = none := by
  rw [processOne_eq_backupPath cfg eff filenames preserve keep verbose st sourcefile orig
    hacc hntar hnalt hsrc]
  exact processBackupPath_restores eff preserve keep verbose _ sourcefile
    (splitext sourcefile).1 (splitext sourcefile).2 orig newD
    (backup_ne_source sourcefile _ _ rfl) hdest hback hge hnz

/-- Witness for C1: a 3-byte `a.zip` whose repack produces a 4-byte
candidate — the original is restored and the backup deleted. -/
theorem backup_compare_restores_original_witness :
    ∃ st', processOne cfgOptipng effGrow "a.zip" true false false
        ⟨[("a.zip", ⟨[1, 2, 3], 5⟩)], 0, 0, [], [], none⟩ "a.zip" = .ok st' ∧
      alGet st'.fs "a.zip" = some ⟨[1, 2, 3], 5⟩ ∧
      alGet st'.fs ((splitext "a.zip").1 ++ "_bak" ++ (splitext "a.zip").2) = none :=
  backup_compare_restores_original cfgOptipng effGrow "a.zip" true false false
    ⟨[("a.zip", ⟨[1, 2, 3], 5⟩)], 0, 0, [], [], none⟩ "a.zip" ⟨[1, 2, 3], 5⟩ ⟨[9, 9, 9, 9], 0⟩
    (by decide) (by decide) (by decide) (by decide) (by decide) (by decide) (by decide)
    (by decide)

/-- Claim C10: for every file on the backup/compare path whose original
size is 0 bytes, with verbose output enabled and the strategy having
produced an output file, the per-file summary divides the new size by the
original size and raises `ZeroDivisionError`, aborting the run. -/
theorem zero_byte_file_divzero (cfg : UtilCfg) (eff : Call → Fs → Fs)
    (filenames : String) (preserve keep : Bool) (st : DriverSt)
    (sourcefile : String) (orig destData : FileData)
    (hacc : (ACCEPTED_TYPES cfg).contains (lowerStr (splitext sourcefile).2) = true)
    (hntar : lowerStr (splitext sourcefile).2 ≠ ".tar")
    (hnalt : OPTIPNG_ALT_TYPE.contains (lowerStr (splitext sourcefile).2) = false)
    (hsrc : alGet st.fs sourcefile = some orig)
    (hzero : orig.bytes = [])
    (hdest : alGet (fsAfterStrategy eff st.fs sourcefile
        ((splitext sourcefile).1 ++ "_bak" ++ (splitext sourcefile).2)
        (lowerStr (splitext sourcefile).2)) sourcefile = some destData) :
    processOne cfg eff filenames preserve keep true st sourcefile = .error .zeroDivision := by
  rw [processOne_eq_backupPath cfg eff filenames preserve keep true st sourcefile orig
    hacc hntar hnalt hsrc]
  simp only [processBackupPath, hdest]
  rw [if_pos trivial]
  rw [print_oneline_summary]
  rw [if_pos (by simp [hzero])]

/-- Witness for C10: a 0-byte `z.png` whose strategy writes an output —
the verbose per-file summary divides by zero. -/
theorem zero_byte_file_divzero_witness :
    processOne cfgOptipng effGrow "z.png" true false true
      ⟨[("z.png", ⟨[], 3⟩)], 0, 0, [], [], none⟩ "z.png" = .error .zeroDivision :=
  zero_byte_file_divzero cfgOptipng effGrow "z.png" true false
    ⟨[("z.png", ⟨[], 3⟩)], 0, 0, [], [], none⟩ "z.png" ⟨[], 3⟩ ⟨[9, 9, 9, 9], 0⟩
    (by decide) (by decide) (by decide) (by decide) rfl (by decide)
